import Mathlib

/-!
Shallow embedding of `procedural_maze_generator.py` (class `ProceduralMazeGenerator`).

Python's process-wide pseudorandom source is modelled as an infinite stream
`g : ℕ → Draw` of draw outcomes together with an explicit cursor `k : ℕ` that
every random call advances by the number of outcomes it consumes:
`random.choice(seq)` and the Fisher-Yates steps of `random.shuffle` consume one
`Draw.nat n` and pick index `n % len(seq)`, `random.randint(a, b)` consumes one
`Draw.nat n` and yields `a + n % (b - a + 1)`, and `random.random()` consumes
one `Draw.q x` yielding the rational `x` (floats are modelled as exact
rationals; the code only ever compares them). Quantifying theorems over all
streams covers every behaviour of the real generator.

The one unbounded construct of the source, the decoy-name collision retry
`while child_name in existing_names`, is given explicit fuel (`rf`); a run
that returns `MazeError.retryExhausted` for every fuel value is a run on which
the Python code loops forever. Filesystem output (`_create_file_system`) and
`print` calls are outside the modelled core, exactly as in the specification's
scope ("actual filesystem I/O ... out of scope").
-/

/-- Outcome of one consumption of the pseudorandom source. -/
inductive Draw where
  | nat (n : ℕ)
  | q (x : ℚ)

/-- Index-like view of a draw (used by `choice` / `randint` / `shuffle`). -/
def Draw.asNat : Draw → ℕ
  | .nat n => n
  | .q _ => 0

/-- Rational view of a draw (used by `random.random()`). -/
def Draw.asQ : Draw → ℚ
  | .q x => x
  | .nat _ => 0

/-- Python `dict` assignment `d[key] = val`: overwrite in place if the key is
present, otherwise append (insertion order preserved). -/
def dictInsert (d : List (String × String)) (key val : String) : List (String × String) :=
  if d.any (fun p => p.1 = key) then
    d.map (fun p => if p.1 = key then (key, val) else p)
  else d ++ [(key, val)]

/-- Python `str.upper()` for the ASCII strings this program manipulates. -/
def pyUpper (s : String) : String := ⟨s.data.map Char.toUpper⟩

/-- Python `str.lower()` for the ASCII strings this program manipulates. -/
def pyLower (s : String) : String := ⟨s.data.map Char.toLower⟩

/-- Python `sep.join(s)` over the characters of a string, as in
`' '.join(target_name.upper())`. -/
def pyJoin (sep : String) (s : String) : String :=
  ⟨(List.intersperse sep.data (s.data.map (fun c => [c]))).flatten⟩

/-- Python `name[0]` on a nonempty string (the default is never exposed: the
single use site guards on nonemptiness first). -/
def pyFront (s : String) : Char := s.data.headD 'A'

/-- Python `s[0:3]`. -/
def pyTake (n : ℕ) (s : String) : String := ⟨s.data.take n⟩

/-- Python `s.split(sep)` for a one-character separator. -/
def pySplit (sep : Char) (s : String) : List String :=
  (s.data.splitOn sep).map (fun l => ⟨l⟩)

/-- Python `s.replace('_', ' ')` (single-character pattern). -/
def pyReplaceUnderscore (s : String) : String :=
  ⟨s.data.map (fun c => if c = '_' then ' ' else c)⟩

/-- Whether the character list `pat` occurs contiguously in the second list. -/
def hasSubChars (pat : List Char) : List Char → Bool
  | [] => decide (pat = [])
  | c :: t => decide ((c :: t).take pat.length = pat) || hasSubChars pat t

/-- Swap the elements at positions `i` and `j` of a list (used by shuffle). -/
def listSwap (l : List String) (i j : ℕ) : List String :=
  (l.set i (l.getD j "")).set j (l.getD i "")

/-- Fisher-Yates loop of `random.shuffle`: `for i in reversed(range(1, len(x)))`,
draw `j = _randbelow(i+1)` and swap positions `i` and `j`. The first argument
is the current `i`. -/
def pyShuffleAux (g : ℕ → Draw) : ℕ → ℕ → List String → List String × ℕ
  | 0, k, l => (l, k)
  | i + 1, k, l =>
    let j := (g k).asNat % (i + 2)
    pyShuffleAux g i (k + 1) (listSwap l (i + 1) j)

/-- Python `random.shuffle(x)`: consumes `len(x) - 1` draws. -/
def pyShuffle (l : List String) (g : ℕ → Draw) (k : ℕ) : List String × ℕ :=
  pyShuffleAux g (l.length - 1) k l

/-- Enum `PuzzleType` of the source. -/
inductive PuzzleType where
  | coordinates
  | riddle
  | pattern
  | math
  | logic
deriving DecidableEq

/-- The `.value` strings of the `PuzzleType` enum. -/
def PuzzleType.value : PuzzleType → String
  | .coordinates => "coordinates"
  | .riddle => "riddle"
  | .pattern => "pattern"
  | .math => "math"
  | .logic => "logic"

/-- One vocabulary entry of `self.themes`. -/
structure ThemeData where
  locations : List String
  objects : List String
  creatures : List String
  treasures : List String

/-- `self.themes["fantasy"]`. -/
def fantasyTheme : ThemeData :=
  ⟨["forest", "cavern", "ruins", "temple", "tower", "dungeon", "shrine", "castle"],
   ["crystal", "scroll", "altar", "statue", "rune", "gem", "orb", "throne"],
   ["dragon", "phoenix", "unicorn", "wizard", "guardian", "spirit", "oracle"],
   ["GOLDEN_IDOL", "CRYSTAL_CROWN", "ANCIENT_TOME", "MYSTIC_ORB"]⟩

/-- `self.themes["sci-fi"]`. -/
def scifiTheme : ThemeData :=
  ⟨["station", "lab", "core", "bridge", "engine", "bay", "vault", "chamber"],
   ["console", "data", "crystal", "module", "drive", "scanner", "beacon"],
   ["ai", "android", "alien", "cyborg", "robot", "entity", "probe"],
   ["QUANTUM_CORE", "DATA_CRYSTAL", "FUSION_CELL", "NEURAL_MATRIX"]⟩

/-- `self.themes["mystery"]`. -/
def mysteryTheme : ThemeData :=
  ⟨["office", "library", "study", "vault", "basement", "attic", "gallery", "salon"],
   ["clue", "evidence", "document", "key", "safe", "painting", "diary", "letter"],
   ["detective", "witness", "suspect", "butler", "guard", "curator"],
   ["MISSING_WILL", "STOLEN_PAINTING", "SECRET_FORMULA", "HIDDEN_TRUTH"]⟩

/-- The dictionary `self.themes`; `none` is Python's `KeyError` on lookup. -/
def themeData : String → Option ThemeData
  | "fantasy" => some fantasyTheme
  | "sci-fi" => some scifiTheme
  | "mystery" => some mysteryTheme
  | _ => none

/-- Dataclass `MazeConfig`. The float fields `red_herring_ratio` and
`puzzle_density` are modelled as exact rationals (`redHerringFrac` keeps the
source field's meaning; the source name ends in a suffix this development
avoids in identifiers). -/
structure MazeConfig where
  depth : ℕ
  branching_factor : ℕ
  difficulty : String
  redHerringFrac : ℚ
  puzzle_density : ℚ
  treasure_name : String
  theme : String
  enable_coordinates : Bool
  enable_riddles : Bool
  enable_math : Bool

/-- The default configuration of the dataclass. -/
def defaultConfig : MazeConfig :=
  ⟨5, 3, "medium", mkRat 2 5, mkRat 3 5, "GOLDEN_IDOL", "fantasy", true, true, false⟩

/-- A configuration the specification calls valid: depth at least 1 (levels
from entrance to chamber inclusive), a positive branching factor (else
`random.randint(1, branching_factor)` fails), and a known theme. -/
def MazeConfig.Valid (cfg : MazeConfig) : Prop :=
  1 ≤ cfg.depth ∧ 1 ≤ cfg.branching_factor ∧ (themeData cfg.theme).isSome

/-- Dataclass `MazeNode` (recursive through `children`, hence an inductive). -/
inductive MazeNode where
  | mk (name : String) (path : String) (depth : ℕ) (is_treasure_path : Bool)
      (children : List MazeNode) (files : List (String × String))
      (puzzle_type : Option PuzzleType) (clue_content : String) (red_herring : Bool)

def MazeNode.name : MazeNode → String
  | .mk n _ _ _ _ _ _ _ _ => n

def MazeNode.path : MazeNode → String
  | .mk _ p _ _ _ _ _ _ _ => p

def MazeNode.depth : MazeNode → ℕ
  | .mk _ _ d _ _ _ _ _ _ => d

def MazeNode.is_treasure_path : MazeNode → Bool
  | .mk _ _ _ t _ _ _ _ _ => t

def MazeNode.children : MazeNode → List MazeNode
  | .mk _ _ _ _ c _ _ _ _ => c

def MazeNode.files : MazeNode → List (String × String)
  | .mk _ _ _ _ _ f _ _ _ => f

def MazeNode.puzzle_type : MazeNode → Option PuzzleType
  | .mk _ _ _ _ _ _ pt _ _ => pt

def MazeNode.clue_content : MazeNode → String
  | .mk _ _ _ _ _ _ _ c _ => c

def MazeNode.red_herring : MazeNode → Bool
  | .mk _ _ _ _ _ _ _ _ r => r

/-- Replace the `files` mapping of a node (models mutation of `node.files`). -/
def MazeNode.withFiles : MazeNode → List (String × String) → MazeNode
  | .mk n p d t c _ pt cl r, f => .mk n p d t c f pt cl r

/-- Record a puzzle type and clue on a node (models the two assignments
`node.puzzle_type = ...; node.clue_content = ...`). -/
def MazeNode.withPuzzle : MazeNode → Option PuzzleType → String → MazeNode
  | .mk n p d t c f _ _ r, pt, cl => .mk n p d t c f pt cl r

/-- A throwaway node value for total list indexing. -/
def node0 : MazeNode := .mk "" "" 0 false [] [] none "" false

instance : Inhabited MazeNode := ⟨node0⟩

/-- Failures of a generation run. `unknownTheme` is the `KeyError` Python
raises on `self.themes[self.config.theme]`; `indexError` is the `IndexError`
of `treasure_nodes[-1]` on an empty list; `retryExhausted` reports that the
decoy-name collision retry loop did not exit within the given fuel. -/
inductive MazeError where
  | unknownTheme (t : String)
  | indexError
  | retryExhausted

/-- Method `_generate_treasure_path`: shuffle a copy of the theme's locations,
then build the name sequence of length `config.depth`; index 0 is `"entrance"`, the
last index draws a treasure name (lower-cased, `"_chamber"` appended), and
every other index `i` reads the shuffled list at `i % len(locations)`.
Returns the path together with the advanced stream cursor. -/
def genTreasurePath (cfg : MazeConfig) (td : ThemeData) (g : ℕ → Draw) (k : ℕ) :
    List String × ℕ :=
  let sh := pyShuffle td.locations g k
  let locs := sh.1
  let k1 := sh.2
  let path := (List.range cfg.depth).map (fun i =>
    if i = 0 then "entrance"
    else if i = cfg.depth - 1 then
      pyLower (td.treasures.getD ((g k1).asNat % td.treasures.length) "") ++ "_chamber"
    else locs.getD (i % locs.length) "")
  (path, if 2 ≤ cfg.depth then k1 + 1 else k1)

/-- Child path construction `f"{node.path}/{child_name}" if node.path else child_name`. -/
def childPath (p n : String) : String := if p = "" then n else p ++ "/" ++ n

/-- The decoy-name collision retry of `_build_maze_tree`: draw
`random.choice(location_pool)` and re-draw while the name collides with an
existing sibling name. `fuel` bounds the number of attempts; the Python loop
is unbounded, so `none` for every fuel value is an infinite retry. -/
def drawName (pool existing : List String) (g : ℕ → Draw) : ℕ → ℕ → Option (String × ℕ)
  | 0, _ => none
  | fuel + 1, k =>
    let name := pool.getD ((g k).asNat % pool.length) ""
    if name ∈ existing then drawName pool existing g fuel (k + 1)
    else some (name, k + 1)

/-- The `for _ in range(num_additional)` decoy loop of `_build_maze_tree`.
`bs` is the recursive tree build at the next smaller budget, applied as
`bs name path depth red_herring k`; `pdepth` is the depth of the node whose
children are being created. For each decoy: draw a fresh name (collision
retry), draw the `red_herring` Bernoulli, append the child, then draw the
depth-decay recursion Bernoulli `random.random() > node.depth * 0.2` and
recurse only when it succeeds. Returns the final `children` list, the
accumulated `all_nodes` suffix, and the cursor. -/
def decoyLoop (cfg : MazeConfig) (td : ThemeData) (g : ℕ → Draw)
    (bs : String → String → ℕ → Bool → ℕ → Option (MazeNode × List MazeNode × ℕ))
    (rf : ℕ) (parentPath : String) (pdepth : ℕ) :
    ℕ → List MazeNode → List MazeNode → ℕ → Option (List MazeNode × List MazeNode × ℕ)
  | 0, children, acc, k => some (children, acc, k)
  | count + 1, children, acc, k =>
    let pool := td.locations ++ td.objects
    match drawName pool (children.map MazeNode.name) g rf k with
    | none => none
    | some (cname, k1) =>
      let herring := decide ((g k1).asQ < cfg.redHerringFrac)
      let doRec := decide ((g (k1 + 1)).asQ > mkRat pdepth 5)
      if doRec then
        match bs cname (childPath parentPath cname) (pdepth + 1) herring (k1 + 2) with
        | none => none
        | some (child, sub, k2) =>
          decoyLoop cfg td g bs rf parentPath pdepth count
            (children ++ [child]) (acc ++ sub) k2
      else
        let child : MazeNode :=
          .mk cname (childPath parentPath cname) (pdepth + 1) false [] [] none "" herring
        decoyLoop cfg td g bs rf parentPath pdepth count
          (children ++ [child]) (acc ++ [child]) (k1 + 2)

/-- Method `_build_maze_tree`, returning the finished node together with the
`all_nodes` slice it contributes (the node first, then its descendants in
creation order) and the advanced cursor. A node at `depth >= config.depth`
gets no children. Otherwise, when `depth < len(treasure_path) - 1` (the
source tests only the depth, not whether the node itself is on the path), one
`is_treasure_path` child named `treasure_path[depth+1]` is created and
recursed into unconditionally; then `randint(1, branching_factor)` decoys are
added by `decoyLoop`. `buildStep` is one unfolding with `bs` standing for the
recursive call; `buildSubtree` below ties the knot over a structural budget
(the top-level call passes `cfg.depth`, which the depth guard makes
sufficient, so the budget-exhausted `none` of the base case is unreachable). -/
def buildStep (cfg : MazeConfig) (td : ThemeData) (tpath : List String) (g : ℕ → Draw)
    (rf : ℕ)
    (bs : String → String → ℕ → Bool → Bool → ℕ → Option (MazeNode × List MazeNode × ℕ))
    (name path : String) (depth : ℕ) (flag herring : Bool) (k : ℕ) :
    Option (MazeNode × List MazeNode × ℕ) :=
  if cfg.depth ≤ depth then
    let n : MazeNode := .mk name path depth flag [] [] none "" herring
    some (n, [n], k)
  else
    let start : Option (List MazeNode × List MazeNode × ℕ) :=
      if depth < tpath.length - 1 then
        let tname := tpath.getD (depth + 1) ""
        match bs tname (childPath path tname) (depth + 1) true false k with
        | none => none
        | some (tchild, tsub, k1) => some ([tchild], tsub, k1)
      else some ([], [], k)
    match start with
    | none => none
    | some (children0, acc0, k1) =>
      let num := 1 + (g k1).asNat % cfg.branching_factor
      match decoyLoop cfg td g (fun nm p d h kk => bs nm p d false h kk)
          rf path depth num children0 acc0 (k1 + 1) with
      | none => none
      | some (children, acc, k2) =>
        let node : MazeNode := .mk name path depth flag children [] none "" herring
        some (node, node :: acc, k2)

/-- The recursion of `_build_maze_tree`: iterate `buildStep` over the
structural budget (plain `Nat.rec`, so runs evaluate definitionally). -/
def buildSubtree (cfg : MazeConfig) (td : ThemeData) (tpath : List String) (g : ℕ → Draw)
    (rf : ℕ) (budget : ℕ) : String → String → ℕ → Bool → Bool → ℕ →
    Option (MazeNode × List MazeNode × ℕ) :=
  @Nat.rec (fun _ => String → String → ℕ → Bool → Bool → ℕ →
      Option (MazeNode × List MazeNode × ℕ))
    (fun name path depth flag herring k =>
      if cfg.depth ≤ depth then
        let n : MazeNode := .mk name path depth flag [] [] none "" herring
        some (n, [n], k)
      else none)
    (fun _ ih => buildStep cfg td tpath g rf ih)
    budget

/-- Method `_choose_puzzle_type`: the list of available types honours the
three enable flags, with `PATTERN` and `LOGIC` always appended as fallbacks;
`n` is the draw of `random.choice`. -/
def chooseType (cfg : MazeConfig) (n : ℕ) : PuzzleType :=
  let avail :=
    (if cfg.enable_coordinates then [PuzzleType.coordinates] else []) ++
    (if cfg.enable_riddles then [PuzzleType.riddle] else []) ++
    (if cfg.enable_math then [PuzzleType.math] else []) ++
    [PuzzleType.pattern, PuzzleType.logic]
  avail.getD (n % avail.length) PuzzleType.pattern

/-- Method `_generate_coordinate_clue`: split the target's path on `/`; with
at least two segments the last two become the coordinates, otherwise the
literal `"target"` and the target's name; then choose one of four templates. -/
def generateCoordinateClue (target : MazeNode) (g : ℕ → Draw) (k : ℕ) : String × ℕ :=
  let parts := pySplit '/' target.path
  let x := if 2 ≤ parts.length then parts.getD (parts.length - 2) "" else "target"
  let y := if 2 ≤ parts.length then parts.getD (parts.length - 1) "" else target.name
  let ts := ["The coordinates are marked: X=" ++ x ++ ", Y=" ++ y,
             "Ancient map shows location at (" ++ x ++ ", " ++ y ++ ")",
             "The compass points to coordinates: " ++ x ++ " by " ++ y,
             "Treasure lies where " ++ x ++ " meets " ++ y]
  (ts.getD ((g k).asNat % ts.length) "", k + 1)

/-- Method `_generate_riddle_clue`: four templates on the target name, one of
which upper-cases its first three characters. -/
def generateRiddleClue (tn : String) (g : ℕ → Draw) (k : ℕ) : String × ℕ :=
  let ts := ["I am not shallow but ___. I am not new but ___. Seek the " ++ tn ++ ".",
             "Where " ++ tn ++ " dwells, wisdom flows. Look where the ancients chose.",
             "Three letters start my name, " ++ pyUpper (pyTake 3 tn) ++ ". Find where I remain.",
             "Neither high nor low, but where " ++ tn ++ " grows."]
  (ts.getD ((g k).asNat % ts.length) "", k + 1)

/-- Method `_generate_pattern_clue`: four templates spelling out the
upper-cased target name. -/
def generatePatternClue (tn : String) (g : ℕ → Draw) (k : ℕ) : String × ℕ :=
  let ts := ["The pattern spells: " ++ pyJoin " " (pyUpper tn),
             "Follow the sequence to: " ++ pyUpper tn,
             "The symbols form: " ++ pyJoin "-" (pyUpper tn),
             "Decoded pattern reveals: " ++ pyUpper tn]
  (ts.getD ((g k).asNat % ts.length) "", k + 1)

/-- The condition of `_generate_math_clue`: the (upper-cased) character is a
key of the dictionary `{chr(i): i - 64 for i in range(65, 91)}`. -/
def isUpperAlpha (c : Char) : Prop := 'A' ≤ c ∧ c ≤ 'Z'

instance (c : Char) : Decidable (isUpperAlpha c) := by
  unfold isUpperAlpha; infer_instance

/-- Method `_generate_math_clue`: if the target name is nonempty and its first
letter upper-cases into `A..Z`, emit the doubled-then-halved equation for the
letter's 1-indexed alphabet position; otherwise the generic fallback. Draws
nothing from the random source. -/
def generateMathClue (tn : String) : String :=
  if tn ≠ "" ∧ isUpperAlpha (pyFront tn).toUpper then
    let v := (pyFront tn).toUpper.toNat - 64
    "Solve: " ++ toString (v * 2) ++ " ÷ 2 = " ++ toString v ++ " = " ++
      String.singleton (pyFront tn).toUpper ++ ". First letter of your destination."
  else "Calculate the path to " ++ pyUpper tn

/-- Method `_generate_logic_clue`: four templates on the upper-cased name. -/
def generateLogicClue (tn : String) (g : ℕ → Draw) (k : ℕ) : String × ℕ :=
  let ts := ["If not A and not B, then " ++ pyUpper tn,
             "The path of exclusion leads to " ++ pyUpper tn,
             "When all else fails, seek " ++ pyUpper tn,
             "The logical conclusion: " ++ pyUpper tn]
  (ts.getD ((g k).asNat % ts.length) "", k + 1)

/-- Method `_generate_clue`: dispatch on the puzzle type. Only the MATH branch
consumes no draw. -/
def generateClue (pt : PuzzleType) (target : MazeNode) (g : ℕ → Draw) (k : ℕ) :
    String × ℕ :=
  match pt with
  | .coordinates => generateCoordinateClue target g k
  | .riddle => generateRiddleClue target.name g k
  | .pattern => generatePatternClue target.name g k
  | .math => (generateMathClue target.name, k)
  | .logic => generateLogicClue target.name g k

/-- One iteration of the clue loop of `_add_puzzles_and_clues` for the node
`node` whose successor in the treasure-node list is `target`: with the
density draw below `puzzle_density`, choose a type, generate the clue from
the target, record the type and clue on the node and store the clue file
`clue_<type>.txt`; otherwise only the density draw is consumed. -/
def clueStep (cfg : MazeConfig) (node target : MazeNode) (g : ℕ → Draw) (k : ℕ) :
    MazeNode × ℕ :=
  if (g k).asQ < cfg.puzzle_density then
    let pt := chooseType cfg ((g (k + 1)).asNat)
    let c := generateClue pt target g (k + 2)
    (((node.withPuzzle (some pt) c.1).withFiles
        (dictInsert node.files ("clue_" ++ pt.value ++ ".txt") c.1)), c.2)
  else (node, k + 1)

/-- The loop `for i, node in enumerate(treasure_nodes[:-1])`: each element of
the treasure-node list except the last is processed by `clueStep` with the
original next element as target. -/
def clueLoop (cfg : MazeConfig) : List MazeNode → (ℕ → Draw) → ℕ → List MazeNode × ℕ
  | [], _, k => ([], k)
  | n :: rest, g, k =>
    match rest with
    | [] => ([n], k)
    | nx :: _ =>
      let s := clueStep cfg n nx g k
      let r := clueLoop cfg rest g s.2
      (s.1 :: r.1, r.2)

/-- Positional merge of the updated treasure nodes back into `all_nodes`: the
`j`-th node with `is_treasure_path` set is replaced by the `j`-th element of
`repl` (models that the Python loop mutates the shared node objects). -/
def replaceFlagged : List MazeNode → List MazeNode → List MazeNode
  | [], _ => []
  | n :: t, repl =>
    if n.is_treasure_path then (repl.headD n) :: replaceFlagged t repl.tail
    else n :: replaceFlagged t repl

/-- The welcome message written on the entrance (a drawn treasure name). -/
def welcomeText (t : String) : String :=
  "Welcome, brave explorer! The " ++ t ++
    " awaits those clever enough to solve the ancient puzzles."

/-- The rules message written on the entrance. -/
def rulesText : String :=
  "Use your tools wisely. Beware of false paths and red herrings!"

/-- Write the welcome and rules files on `all_nodes[0]`. -/
def addWelcome (l : List MazeNode) (t : String) : List MazeNode :=
  match l with
  | [] => []
  | e :: rest =>
    e.withFiles (dictInsert (dictInsert e.files "welcome.txt" (welcomeText t))
      "rules.txt" rulesText) :: rest

/-- Method `_generate_treasure_text` applied to the drawn treasure name `t`. -/
def treasureText (cfg : MazeConfig) (t : String) : String :=
  "🏆 CONGRATULATIONS! You found the " ++ t ++ "! 🏆\n\n" ++
  "The legendary treasure has been claimed by a worthy explorer.\n" ++
  "This " ++ pyReplaceUnderscore (pyLower t) ++ " grants great power to its finder.\n\n" ++
  "You have successfully navigated the procedural maze and proven your intelligence!\n\n" ++
  "Maze Statistics:\n" ++
  "- Depth: " ++ toString cfg.depth ++ " levels\n" ++
  "- Theme: " ++ cfg.theme ++ "\n" ++
  "- Difficulty: " ++ cfg.difficulty ++ "\n" ++
  "- Branching Factor: " ++ toString cfg.branching_factor ++ "\n"

/-- Write a file on `treasure_nodes[-1]`, i.e. on the last node of the list
whose `is_treasure_path` flag is set. -/
def addTreasureFile : List MazeNode → String → String → List MazeNode
  | [], _, _ => []
  | n :: t, fname, txt =>
    if t.any (fun m => m.is_treasure_path) then n :: addTreasureFile t fname txt
    else if n.is_treasure_path then n.withFiles (dictInsert n.files fname txt) :: t
    else n :: addTreasureFile t fname txt

/-- Method `_add_puzzles_and_clues` over the finished `all_nodes` list: run the
clue loop over the `is_treasure_path` nodes (all but the last, each targeting
its successor), write welcome and rules on `all_nodes[0]` (one treasure-name
draw), then write `f"{config.treasure_name}.txt"` with the generated treasure
text (one more draw) on the last treasure node. An empty treasure-node list is
Python's `IndexError` on `treasure_nodes[-1]`. -/
def addPuzzlesAndClues (cfg : MazeConfig) (td : ThemeData) (l : List MazeNode)
    (g : ℕ → Draw) (k : ℕ) : Except MazeError (List MazeNode × ℕ) :=
  let ft := l.filter (fun n => n.is_treasure_path)
  if ft.isEmpty then .error .indexError
  else
    let lp := clueLoop cfg ft g k
    let l1 := replaceFlagged l lp.1
    let k1 := lp.2
    let t := td.treasures.getD ((g k1).asNat % td.treasures.length) ""
    let l2 := addWelcome l1 t
    let t2 := td.treasures.getD ((g (k1 + 1)).asNat % td.treasures.length) ""
    let l3 := addTreasureFile l2 (cfg.treasure_name ++ ".txt") (treasureText cfg t2)
    .ok (l3, k1 + 2)

/-- The fixed fake-treasure filenames of `_add_red_herrings`. -/
def fakeTreasures : List String :=
  ["fool\x27s_gold.txt", "empty_chest.txt", "broken_relic.txt", "false_idol.txt"]

/-- The fixed warning content of a fake-treasure file. -/
def fakeTreasureText : String :=
  "❌ This is not the real treasure! Keep searching elsewhere."

/-- The fixed misleading-clue phrases of `_add_red_herrings`. -/
def misleadingClues : List String :=
  ["This path leads nowhere useful.",
   "A dead end disguised as progress.",
   "You\x27re going in circles. Turn back.",
   "This treasure is just an illusion.",
   "The real prize lies elsewhere."]

/-- Loop body of `_add_red_herrings` for one red-herring node: with the first
draw below 0.3, attach a drawn fake-treasure file; with the (independent) next
draw below 0.5, attach `misleading_clue_<randint(1,9)>.txt` with a drawn
misleading phrase. -/
def decorateNode (node : MazeNode) (g : ℕ → Draw) (k : ℕ) : MazeNode × ℕ :=
  let s1 : List (String × String) × ℕ :=
    if (g k).asQ < mkRat 3 10 then
      (dictInsert node.files (fakeTreasures.getD ((g (k + 1)).asNat % fakeTreasures.length) "")
        fakeTreasureText, k + 2)
    else (node.files, k + 1)
  let s2 : List (String × String) × ℕ :=
    if (g s1.2).asQ < mkRat 1 2 then
      let n := 1 + (g (s1.2 + 1)).asNat % 9
      (dictInsert s1.1 ("misleading_clue_" ++ toString n ++ ".txt")
        (misleadingClues.getD ((g (s1.2 + 2)).asNat % misleadingClues.length) ""), s1.2 + 3)
    else (s1.1, s1.2 + 1)
  (node.withFiles s2.1, s2.2)

/-- Method `_add_red_herrings`: decorate exactly the nodes whose `red_herring`
flag is set, in `all_nodes` order. -/
def addRedHerrings : List MazeNode → (ℕ → Draw) → ℕ → List MazeNode × ℕ
  | [], _, k => ([], k)
  | n :: t, g, k =>
    if n.red_herring then
      let s := decorateNode n g k
      let r := addRedHerrings t g s.2
      (s.1 :: r.1, r.2)
    else
      let r := addRedHerrings t g k
      (n :: r.1, r.2)

/-- The state `generate_maze` leaves behind (treasure path, root, `all_nodes`
in creation order with the files of the two annotation passes applied). -/
structure GenResult where
  treasure_path : List String
  root : MazeNode
  nodes : List MazeNode

/-- Method `generate_maze`, without the out-of-scope filesystem render and
`print` calls: reset state, plan the treasure path, create the root
`MazeNode(name="entrance", path="", depth=0)` (its `is_treasure_path` keeps
the dataclass default `False`), grow the tree, add puzzles and clues, add red
herrings. `rf` is the fuel of each collision-retry loop. -/
def generateMaze (cfg : MazeConfig) (g : ℕ → Draw) (rf : ℕ) :
    Except MazeError GenResult :=
  match themeData cfg.theme with
  | none => .error (.unknownTheme cfg.theme)
  | some td =>
    let tp := genTreasurePath cfg td g 0
    match buildSubtree cfg td tp.1 g rf cfg.depth "entrance" "" 0 false false tp.2 with
    | none => .error .retryExhausted
    | some (root, nodes, k2) =>
      match addPuzzlesAndClues cfg td nodes g k2 with
      | .error e => .error e
      | .ok (nodes1, k3) =>
        let nodes2 := (addRedHerrings nodes1 g k3).1
        .ok ⟨tp.1, root, nodes2⟩

/-- Method `get_solution_path` (returns a copy of the stored path; a pure
value in the embedding). -/
def getSolutionPath (r : GenResult) : List String := r.treasure_path

/-- The dictionary returned by `get_maze_stats`. -/
structure MazeStats where
  total_nodes : ℕ
  treasure_path_nodes : ℕ
  red_herring_nodes : ℕ
  total_files : ℕ
  max_depth : ℕ
  theme : String
  solution_path : List String

/-- Method `get_maze_stats`: a read-only aggregation over `all_nodes`, the
stored treasure path and the configuration. -/
def getMazeStats (cfg : MazeConfig) (nodes : List MazeNode) (tpath : List String) :
    MazeStats :=
  ⟨nodes.length,
   (nodes.filter (fun n => n.is_treasure_path)).length,
   (nodes.filter (fun n => n.red_herring)).length,
   (nodes.map (fun n => n.files.length)).sum,
   cfg.depth, cfg.theme, tpath⟩

/-- Invariant established by the tree builder for every node it creates:
pairwise-distinct child names, no files or puzzle yet, depth within the
configured bound, and no children at or beyond the bound. -/
def NodeOk (cfg : MazeConfig) (m : MazeNode) : Prop :=
  (m.children.map MazeNode.name).Nodup ∧
  m.files = [] ∧ m.puzzle_type = none ∧
  m.depth ≤ cfg.depth ∧ (cfg.depth ≤ m.depth → m.children = [])

/-- Every node of `out` is a file/puzzle-level update of some node of `inp`:
its `children` and `depth` are untouched. The two annotation passes only
produce lists in this relation to their input. -/
def ShapeFrom (out inp : List MazeNode) : Prop :=
  ∀ m ∈ out, ∃ m0 ∈ inp, m.children = m0.children ∧ m.depth = m0.depth

/-- A generation run that fails with `retryExhausted` for every retry fuel:
the Python collision-retry loop runs forever on it. -/
def NeverFinishes (f : ℕ → Except MazeError GenResult) : Prop :=
  ∀ rf, f rf = Except.error MazeError.retryExhausted

instance : Inhabited GenResult := ⟨⟨[], node0, []⟩⟩

/-- Constant stream: every `random.random()` yields 1/2 and every
`choice`/`randint`/shuffle draw yields index 0. -/
def gq : ℕ → Draw := fun _ => Draw.q (mkRat 1 2)

/-- Configuration for the concrete runs exhibiting the treasure-path marking
slip: depth 3, one extra branch per node, no red herrings, no puzzles. -/
def cfgA : MazeConfig :=
  ⟨3, 1, "easy", 0, 0, "GOLDEN_IDOL", "fantasy", true, true, false⟩

/-- The finished state of the `cfgA`/`gq` run. -/
def resA : GenResult :=
  match generateMaze cfgA gq 9 with
  | .ok r => r
  | .error _ => default

/-- As `cfgA` but with puzzle density 1, so every clue draw succeeds. -/
def cfgB : MazeConfig :=
  ⟨3, 1, "easy", 0, 1, "GOLDEN_IDOL", "fantasy", true, true, false⟩

/-- The finished state of the `cfgB`/`gq` run. -/
def resB : GenResult :=
  match generateMaze cfgB gq 9 with
  | .ok r => r
  | .error _ => default

/-- Valid configuration (spec: depth at least 1) used for the non-termination
counterexample: depth 1 and branching factor 2. -/
def cfg3 : MazeConfig :=
  ⟨1, 2, "easy", mkRat 2 5, mkRat 3 5, "GOLDEN_IDOL", "fantasy", true, true, false⟩

/-- Stream for the non-termination counterexample: the `randint` draw of the
root's decoy count (cursor 7, right after the 7 shuffle draws) asks for two
decoys; every other draw is index 0, so the second decoy keeps drawing the
first decoy's name `"forest"` forever. -/
def g3 : ℕ → Draw := fun k => if k = 7 then Draw.nat 1 else Draw.nat 0

/-- Valid configuration with depth 1 for the solution-path counterexample. -/
def cfg5 : MazeConfig :=
  ⟨1, 3, "easy", mkRat 2 5, mkRat 3 5, "GOLDEN_IDOL", "fantasy", true, true, false⟩

/-- Configuration with an unknown theme key. -/
def cfgX : MazeConfig :=
  ⟨3, 2, "easy", mkRat 2 5, mkRat 3 5, "GOLDEN_IDOL", "cyberpunk", true, true, false⟩

/-- Draw stream exercising both red-herring Bernoulli trials: 0.1 (below 0.3),
fake-treasure index 2, 0.2 (below 0.5), `randint` draw 4, phrase index 1. -/
def gd : ℕ → Draw := fun k =>
  if k = 0 then Draw.q (mkRat 1 10)
  else if k = 1 then Draw.nat 2
  else if k = 2 then Draw.q (mkRat 1 5)
  else if k = 3 then Draw.nat 4
  else Draw.nat 1

/-- Whether `CONGRATULATIONS` occurs in a string. -/
def hasCongrats (s : String) : Bool := hasSubChars "CONGRATULATIONS".data s.data

theorem MazeNode.name_mk (n p d t c f pt cl r) :
    (MazeNode.mk n p d t c f pt cl r).name = n := rfl

theorem MazeNode.depth_mk (n p d t c f pt cl r) :
    (MazeNode.mk n p d t c f pt cl r).depth = d := rfl

theorem MazeNode.children_mk (n p d t c f pt cl r) :
    (MazeNode.mk n p d t c f pt cl r).children = c := rfl

theorem MazeNode.files_mk (n p d t c f pt cl r) :
    (MazeNode.mk n p d t c f pt cl r).files = f := rfl

theorem MazeNode.puzzle_type_mk (n p d t c f pt cl r) :
    (MazeNode.mk n p d t c f pt cl r).puzzle_type = pt := rfl

theorem MazeNode.withFiles_children (m : MazeNode) (f) :
    (m.withFiles f).children = m.children := by cases m; rfl

theorem MazeNode.withFiles_depth (m : MazeNode) (f) :
    (m.withFiles f).depth = m.depth := by cases m; rfl

theorem MazeNode.withFiles_name (m : MazeNode) (f) :
    (m.withFiles f).name = m.name := by cases m; rfl

theorem MazeNode.withFiles_flag (m : MazeNode) (f) :
    (m.withFiles f).is_treasure_path = m.is_treasure_path := by cases m; rfl

theorem MazeNode.withFiles_files (m : MazeNode) (f) :
    (m.withFiles f).files = f := by cases m; rfl

theorem MazeNode.withFiles_self (m : MazeNode) :
    m.withFiles m.files = m := by cases m; rfl

theorem MazeNode.withPuzzle_children (m : MazeNode) (pt cl) :
    (m.withPuzzle pt cl).children = m.children := by cases m; rfl

theorem MazeNode.withPuzzle_depth (m : MazeNode) (pt cl) :
    (m.withPuzzle pt cl).depth = m.depth := by cases m; rfl

theorem MazeNode.withPuzzle_name (m : MazeNode) (pt cl) :
    (m.withPuzzle pt cl).name = m.name := by cases m; rfl

theorem MazeNode.withPuzzle_files (m : MazeNode) (pt cl) :
    (m.withPuzzle pt cl).files = m.files := by cases m; rfl

theorem MazeNode.withPuzzle_puzzle_type (m : MazeNode) (pt cl) :
    (m.withPuzzle pt cl).puzzle_type = pt := by cases m; rfl

theorem list_headD_mem {α : Type} {l : List α} (d : α) (h : l ≠ []) : l.headD d ∈ l := by
  cases l with
  | nil => exact absurd rfl h
  | cons a t => exact List.mem_cons_self a t

/-- C9. `get_maze_stats` is idempotent and is exactly the read-only
aggregation over the node list: total node count, `is_treasure_path` count,
`red_herring` count, total file count (sum over nodes, equivalently a fold),
and the stored treasure path; it takes the node list and path as values and
has no effect on them. -/
theorem c9_stats_pure (cfg : MazeConfig) (nodes : List MazeNode) (tpath : List String) :
    getMazeStats cfg nodes tpath = getMazeStats cfg nodes tpath ∧
    (getMazeStats cfg nodes tpath).total_nodes = nodes.length ∧
    (getMazeStats cfg nodes tpath).treasure_path_nodes =
      (nodes.filter (fun n => n.is_treasure_path)).length ∧
    (getMazeStats cfg nodes tpath).red_herring_nodes =
      (nodes.filter (fun n => n.red_herring)).length ∧
    (getMazeStats cfg nodes tpath).total_files =
      nodes.foldr (fun n a => n.files.length + a) 0 ∧
    (getMazeStats cfg nodes tpath).solution_path = tpath := by
  refine ⟨rfl, rfl, rfl, rfl, ?_, rfl⟩
  show (nodes.map (fun n => n.files.length)).sum = _
  induction nodes with
  | nil => rfl
  | cons a t ih => simpa using ih

/-- C4. An unknown theme key makes `generate_maze` fail at once with the
theme-lookup error (the spec's `ConfigError` kind "unknown theme key";
Python surfaces it as the `KeyError` of `self.themes[self.config.theme]`),
for every draw stream and every retry fuel — nothing is generated and
nothing is retried. -/
theorem c4_unknown_theme (cfg : MazeConfig) (h : themeData cfg.theme = none) :
    ∀ (g : ℕ → Draw) (rf : ℕ),
      generateMaze cfg g rf = Except.error (MazeError.unknownTheme cfg.theme) := by
  intro g rf
  unfold generateMaze
  rw [h]

/-- Witness for C4 at the concrete theme key `"cyberpunk"`. -/
theorem c4_unknown_theme_witness :
    generateMaze cfgX gq 0 = Except.error (MazeError.unknownTheme "cyberpunk") :=
  c4_unknown_theme cfgX rfl gq 0


set_option maxRecDepth 16000 in
/-- C1. Concrete run exposing the treasure-path marking slip: on the valid
configuration `cfgA` (depth 3, fantasy) with the constant stream `gq`,
generation completes, the single root is `"entrance"` at depth 0 but carries
`is_treasure_path = false`, and depth 2 holds two `is_treasure_path` nodes —
the one reached along the planned path and a second treasure-named child that
`_build_maze_tree` attached under the recursed decoy `"forest"` (it tests
only `node.depth`, never whether the node itself is on the path). So the
marked nodes are neither one-per-depth on `[0, depth)` nor a single rooted
chain. -/
theorem c1_marking_run :
    generateMaze cfgA gq 9 = Except.ok resA ∧
    (resA.nodes.headD node0).name = "entrance" ∧
    (resA.nodes.headD node0).depth = 0 ∧
    (resA.nodes.headD node0).is_treasure_path = false ∧
    ((resA.nodes.filter (fun n => n.is_treasure_path && n.depth == 2)).map MazeNode.path) =
      ["ruins/golden_idol_chamber", "forest/golden_idol_chamber"] ∧
    ((resA.nodes.filter (fun n => n.is_treasure_path && n.depth == 0)).map MazeNode.path) =
      [] ∧
    cfgA.depth = 3 :=
  ⟨rfl, by decide, by decide, by decide, by decide, by decide, rfl⟩

set_option maxRecDepth 16000 in
/-- C2. Same run: the treasure payload file is written on the last
`is_treasure_path` node in creation order, which lies inside the decoy branch
(`forest/golden_idol_chamber`), while the node actually reached by following
the planned treasure path (`ruins/golden_idol_chamber`, the node at depth
`config.depth - 1` under the path names) owns no file at all. -/
theorem c2_treasure_file_run :
    generateMaze cfgA gq 9 = Except.ok resA ∧
    resA.treasure_path = ["entrance", "ruins", "golden_idol_chamber"] ∧
    ((resA.nodes.filter (fun n => n.path == "ruins/golden_idol_chamber")).map
      MazeNode.files) = [[]] ∧
    ((resA.nodes.filter (fun n => n.path == "forest/golden_idol_chamber")).map
      MazeNode.files) =
      [[("GOLDEN_IDOL.txt", treasureText cfgA "GOLDEN_IDOL")]] ∧
    hasCongrats (treasureText cfgA "GOLDEN_IDOL") = true :=
  ⟨rfl, by decide, by decide, by decide, by decide⟩

/-- C5 counterexample. `cfg5` is valid by the specification's own bound
(depth at least 1), yet for depth 1 the planned path is just `["entrance"]`:
the entry at index `depth - 1` is `"entrance"`, which is not any theme
treasure name lower-cased with `"_chamber"` appended. -/
theorem c5_depth_one_no_chamber :
    MazeConfig.Valid cfg5 ∧
    (genTreasurePath cfg5 fantasyTheme gq 0).1 = ["entrance"] ∧
    (genTreasurePath cfg5 fantasyTheme gq 0).1.getD (cfg5.depth - 1) "" = "entrance" ∧
    (fantasyTheme.treasures.all (fun t => pyLower t ++ "_chamber" ≠ "entrance")) = true :=
  ⟨⟨by decide, by decide, by decide⟩, by decide, by decide, by decide⟩

set_option maxRecDepth 16000 in
/-- C6 counterexample. With puzzle density 1 every density draw succeeds, so
under the claim the entrance (treasure-path index 0) would always receive a
clue file and a puzzle type; in the concrete `cfgB`/`gq` run the entrance
ends with exactly the welcome and rules files, no `clue_*` file and no
puzzle type — the clue loop runs only over the `is_treasure_path`-marked
nodes and the root is never marked. -/
theorem c6_entrance_unclued :
    cfgB.puzzle_density = 1 ∧
    generateMaze cfgB gq 9 = Except.ok resB ∧
    (resB.nodes.headD node0).name = "entrance" ∧
    ((resB.nodes.headD node0).files.map Prod.fst) = ["welcome.txt", "rules.txt"] ∧
    (resB.nodes.headD node0).puzzle_type = none ∧
    resB.treasure_path.length = cfgB.depth :=
  ⟨by decide, rfl, by decide, by decide, by decide, by decide⟩

theorem drawName_none_of_collisions (pool existing : List String) (g : ℕ → Draw) :
    ∀ (fuel k : ℕ),
      (∀ j, pool.getD ((g (k + j)).asNat % pool.length) "" ∈ existing) →
      drawName pool existing g fuel k = none := by
  intro fuel
  induction fuel with
  | zero => intro k _; rfl
  | succ f ih =>
    intro k h
    have h0 := h 0
    simp only [Nat.add_zero] at h0
    simp only [drawName, if_pos h0]
    exact ih (k + 1) (fun j => by
      have e : k + 1 + j = k + (j + 1) := by omega
      rw [e]; exact h (j + 1))

theorem decoyLoop_cons_none {cfg : MazeConfig} {td : ThemeData} {g : ℕ → Draw}
    {bs : String → String → ℕ → Bool → ℕ → Option (MazeNode × List MazeNode × ℕ)}
    {rf : ℕ} {pp : String} {pd count : ℕ} {children acc : List MazeNode} {k : ℕ}
    (h : drawName (td.locations ++ td.objects) (children.map MazeNode.name) g rf k = none) :
    decoyLoop cfg td g bs rf pp pd (count + 1) children acc k = none := by
  simp only [decoyLoop, h]

theorem buildStep_none_no_tchild {cfg : MazeConfig} {td : ThemeData} {tpath : List String}
    {g : ℕ → Draw} {rf : ℕ}
    {bs : String → String → ℕ → Bool → Bool → ℕ → Option (MazeNode × List MazeNode × ℕ)}
    {name path : String} {depth : ℕ} {flag herring : Bool} {k : ℕ}
    (hd : ¬ cfg.depth ≤ depth) (ht : ¬ depth < tpath.length - 1)
    (h : decoyLoop cfg td g (fun nm p d hh kk => bs nm p d false hh kk) rf path depth
        (1 + (g k).asNat % cfg.branching_factor) [] [] (k + 1) = none) :
    buildStep cfg td tpath g rf bs name path depth flag herring k = none := by
  simp only [buildStep, if_neg hd, if_neg ht, h]

theorem generateMaze_error_of_build_none {cfg : MazeConfig} {g : ℕ → Draw} {rf : ℕ}
    {td : ThemeData} (htd : themeData cfg.theme = some td)
    (h : buildSubtree cfg td (genTreasurePath cfg td g 0).1 g rf cfg.depth
        "entrance" "" 0 false false (genTreasurePath cfg td g 0).2 = none) :
    generateMaze cfg g rf = Except.error MazeError.retryExhausted := by
  simp only [generateMaze, htd, h]

theorem c3_decoys_spin {bs : String → String → ℕ → Bool → ℕ →
    Option (MazeNode × List MazeNode × ℕ)} (f : ℕ) :
    decoyLoop cfg3 fantasyTheme g3 bs (f + 1) "" 0 2 [] [] 8 = none := by
  have h1 : decoyLoop cfg3 fantasyTheme g3 bs (f + 1) "" 0 2 [] [] 8 =
      decoyLoop cfg3 fantasyTheme g3 bs (f + 1) "" 0 1
        [MazeNode.mk "forest" "forest" 1 false [] [] none "" true]
        [MazeNode.mk "forest" "forest" 1 false [] [] none "" true] 11 := rfl
  rw [h1]
  refine decoyLoop_cons_none (drawName_none_of_collisions _ _ _ _ _ (fun j => ?_))
  have e : ¬ (11 + j = 7) := by omega
  simp only [g3, if_neg e]
  decide

/-- C3 counterexample. On the valid configuration `cfg3` (depth 1, branching
factor 2) with the stream `g3`, the root asks for two decoys; the first is
named `"forest"` and every later name draw is `"forest"` again, so the
collision retry `while child_name in existing_names` of `_build_maze_tree`
never exits: for every retry bound the run fails with `retryExhausted`, and
no `ConfigError` is ever produced (the source has no such error and no retry
cap). -/
theorem c3_retry_never_exits :
    MazeConfig.Valid cfg3 ∧ NeverFinishes (generateMaze cfg3 g3) := by
  refine ⟨⟨by decide, by decide, by decide⟩, ?_⟩
  intro rf
  match rf with
  | 0 => rfl
  | f + 1 =>
    apply generateMaze_error_of_build_none (show themeData cfg3.theme = some fantasyTheme from rfl)
    show buildStep cfg3 fantasyTheme ["entrance"] g3 (f + 1)
      (buildSubtree cfg3 fantasyTheme ["entrance"] g3 (f + 1) 0) "entrance" "" 0 false false 7
      = none
    apply buildStep_none_no_tchild (by decide) (by decide)
    show decoyLoop cfg3 fantasyTheme g3 _ (f + 1) "" 0 2 [] [] 8 = none
    exact c3_decoys_spin f

theorem drawName_not_mem {pool existing : List String} {g : ℕ → Draw} :
    ∀ {fuel k : ℕ} {nm : String} {k1 : ℕ},
      drawName pool existing g fuel k = some (nm, k1) → nm ∉ existing := by
  intro fuel
  induction fuel with
  | zero => intro k nm k1 h; exact absurd h (by simp [drawName])
  | succ f ih =>
    intro k nm k1 h
    simp only [drawName] at h
    split at h
    · exact ih h
    · next hmem =>
      simp only [Option.some.injEq, Prod.mk.injEq] at h
      obtain ⟨rfl, -⟩ := h
      exact hmem

theorem buildSubtree_zero (cfg : MazeConfig) (td : ThemeData) (tpath : List String)
    (g : ℕ → Draw) (rf : ℕ) (name path : String) (depth : ℕ) (flag herring : Bool)
    (k : ℕ) :
    buildSubtree cfg td tpath g rf 0 name path depth flag herring k =
      if cfg.depth ≤ depth then
        some (.mk name path depth flag [] [] none "" herring,
              [.mk name path depth flag [] [] none "" herring], k)
      else none := rfl

theorem buildSubtree_succ (cfg : MazeConfig) (td : ThemeData) (tpath : List String)
    (g : ℕ → Draw) (rf : ℕ) (b : ℕ) :
    buildSubtree cfg td tpath g rf (b + 1) =
      buildStep cfg td tpath g rf (buildSubtree cfg td tpath g rf b) := rfl

theorem decoyLoop_ok {cfg : MazeConfig} {td : ThemeData} {g : ℕ → Draw}
    {bs : String → String → ℕ → Bool → ℕ → Option (MazeNode × List MazeNode × ℕ)}
    {rf : ℕ} {pp : String} {pd : ℕ}
    (hbs : ∀ nm p d hh kk n l k2, bs nm p d hh kk = some (n, l, k2) → d ≤ cfg.depth →
      n.name = nm ∧ n.depth = d ∧ l.head? = some n ∧ ∀ m ∈ l, NodeOk cfg m) :
    ∀ (count : ℕ) (children acc : List MazeNode) (k : ℕ)
      (children2 acc2 : List MazeNode) (k2 : ℕ),
      decoyLoop cfg td g bs rf pp pd count children acc k = some (children2, acc2, k2) →
      pd + 1 ≤ cfg.depth →
      (children.map MazeNode.name).Nodup →
      (∀ m ∈ acc, NodeOk cfg m) →
      (children2.map MazeNode.name).Nodup ∧ ∀ m ∈ acc2, NodeOk cfg m := by
  intro count
  induction count with
  | zero =>
    intro children acc k c2 a2 k2 h hpd hnd hacc
    simp only [decoyLoop, Option.some.injEq, Prod.mk.injEq] at h
    obtain ⟨rfl, rfl, rfl⟩ := h
    exact ⟨hnd, hacc⟩
  | succ c ih =>
    intro children acc k c2 a2 k2 h hpd hnd hacc
    simp only [decoyLoop] at h
    split at h
    · exact absurd h (by simp)
    · next cname k1 heq =>
      split at h
      · -- the decoy recurses
        split at h
        · exact absurd h (by simp)
        · next child sub k4 heqb =>
          obtain ⟨hname, hdepth, hhead, hsub⟩ :=
            hbs _ _ _ _ _ _ _ _ heqb hpd
          refine ih _ _ _ _ _ _ h hpd ?_ ?_
          · simp only [List.map_append, List.map_cons, List.map_nil, hname]
            rw [List.nodup_append]
            refine ⟨hnd, List.nodup_singleton _, ?_⟩
            intro a ha hb
            simp only [List.mem_singleton] at hb
            subst hb
            exact drawName_not_mem heq ha
          · intro m hm
            rcases List.mem_append.mp hm with hm | hm
            · exact hacc m hm
            · exact hsub m hm
      · -- the decoy stays a leaf
        refine ih _ _ _ _ _ _ h hpd ?_ ?_
        · simp only [List.map_append, List.map_cons, List.map_nil, MazeNode.name_mk]
          rw [List.nodup_append]
          refine ⟨hnd, List.nodup_singleton _, ?_⟩
          intro a ha hb
          simp only [List.mem_singleton] at hb
          subst hb
          exact drawName_not_mem heq ha
        · intro m hm
          rcases List.mem_append.mp hm with hm | hm
          · exact hacc m hm
          · simp only [List.mem_singleton] at hm
            subst hm
            exact ⟨by simp [MazeNode.children_mk], by simp [MazeNode.files_mk],
              by simp [MazeNode.puzzle_type_mk], by simpa [MazeNode.depth_mk] using hpd,
              fun _ => by simp [MazeNode.children_mk]⟩

theorem buildSubtree_ok {cfg : MazeConfig} {td : ThemeData} {tpath : List String}
    {g : ℕ → Draw} {rf : ℕ} :
    ∀ (budget : ℕ) (name path : String) (depth : ℕ) (flag herring : Bool) (k : ℕ)
      (n : MazeNode) (l : List MazeNode) (k2 : ℕ),
      buildSubtree cfg td tpath g rf budget name path depth flag herring k =
        some (n, l, k2) →
      depth ≤ cfg.depth →
      n.name = name ∧ n.depth = depth ∧ l.head? = some n ∧ ∀ m ∈ l, NodeOk cfg m := by
  intro budget
  induction budget with
  | zero =>
    intro name path depth flag herring k n l k2 h hdep
    rw [buildSubtree_zero] at h
    split at h
    · simp only [Option.some.injEq, Prod.mk.injEq] at h
      obtain ⟨rfl, rfl, rfl⟩ := h
      refine ⟨rfl, rfl, rfl, ?_⟩
      intro m hm
      simp only [List.mem_singleton] at hm
      subst hm
      exact ⟨by simp [MazeNode.children_mk], rfl, rfl, hdep, fun _ => rfl⟩
    · exact absurd h (by simp)
  | succ b ih =>
    intro name path depth flag herring k n l k2 h hdep
    rw [buildSubtree_succ] at h
    simp only [buildStep] at h
    split at h
    · -- depth at the bound: leaf node
      simp only [Option.some.injEq, Prod.mk.injEq] at h
      obtain ⟨rfl, rfl, rfl⟩ := h
      refine ⟨rfl, rfl, rfl, ?_⟩
      intro m hm
      simp only [List.mem_singleton] at hm
      subst hm
      exact ⟨by simp [MazeNode.children_mk], rfl, rfl, hdep, fun _ => rfl⟩
    · next hlt =>
      have hdlt : depth < cfg.depth := Nat.lt_of_not_le hlt
      split at h
      · exact absurd h (by simp)
      · next children0 acc0 k1 heq =>
        have hstart : (children0.map MazeNode.name).Nodup ∧ ∀ m ∈ acc0, NodeOk cfg m := by
          split at heq
          · split at heq
            · exact absurd heq (by simp)
            · next tchild tsub k1x heqt =>
              obtain ⟨tname, tdepth, thead, tsub_ok⟩ :=
                ih _ _ _ _ _ _ _ _ _ heqt (by omega)
              simp only [Option.some.injEq, Prod.mk.injEq] at heq
              obtain ⟨rfl, rfl, rfl⟩ := heq
              exact ⟨by simp, tsub_ok⟩
          · simp only [Option.some.injEq, Prod.mk.injEq] at heq
            obtain ⟨rfl, rfl, rfl⟩ := heq
            exact ⟨by simp, by intro m hm; simp at hm⟩
        split at h
        · exact absurd h (by simp)
        · next children acc k2x heqd =>
          have hd := decoyLoop_ok
            (fun nm p d hh kk nx lx kx hb hdd => ih nm p d false hh kk nx lx kx hb hdd)
            _ _ _ _ _ _ _ heqd (by omega) hstart.1 hstart.2
          simp only [Option.some.injEq, Prod.mk.injEq] at h
          obtain ⟨rfl, rfl, rfl⟩ := h
          refine ⟨rfl, rfl, rfl, ?_⟩
          intro m hm
          rcases List.mem_cons.mp hm with hm | hm
          · subst hm
            exact ⟨by simpa using hd.1, rfl, rfl, hdep,
              fun hge => absurd (Nat.lt_of_lt_of_le hdlt hge) (Nat.lt_irrefl _)⟩
          · exact hd.2 m hm

theorem clueStep_shape (cfg : MazeConfig) (n t : MazeNode) (g : ℕ → Draw) (k : ℕ) :
    (clueStep cfg n t g k).1.children = n.children ∧
    (clueStep cfg n t g k).1.depth = n.depth := by
  unfold clueStep
  split
  · exact ⟨by simp [MazeNode.withFiles_children, MazeNode.withPuzzle_children],
      by simp [MazeNode.withFiles_depth, MazeNode.withPuzzle_depth]⟩
  · exact ⟨rfl, rfl⟩

theorem shapeFrom_trans {a b c : List MazeNode} (h1 : ShapeFrom a b) (h2 : ShapeFrom b c) :
    ShapeFrom a c := by
  intro m hm
  obtain ⟨m0, hm0, e1, e2⟩ := h1 m hm
  obtain ⟨m1, hm1, e3, e4⟩ := h2 m0 hm0
  exact ⟨m1, hm1, e1.trans e3, e2.trans e4⟩

theorem clueLoop_shape (cfg : MazeConfig) :
    ∀ (ft : List MazeNode) (g : ℕ → Draw) (k : ℕ), ShapeFrom (clueLoop cfg ft g k).1 ft := by
  intro ft
  induction ft with
  | nil => intro g k m hm; simp [clueLoop] at hm
  | cons n rest ih =>
    intro g k m hm
    cases rest with
    | nil =>
      simp only [clueLoop, List.mem_singleton] at hm
      subst hm
      exact ⟨m, List.mem_cons_self _ _, rfl, rfl⟩
    | cons nx r2 =>
      simp only [clueLoop] at hm
      rcases List.mem_cons.mp hm with hm | hm
      · subst hm
        exact ⟨n, List.mem_cons_self _ _, (clueStep_shape cfg n nx g k).1,
          (clueStep_shape cfg n nx g k).2⟩
      · obtain ⟨m0, hm0, e⟩ := ih g _ m hm
        exact ⟨m0, List.mem_cons_of_mem _ hm0, e⟩

theorem replaceFlagged_mem :
    ∀ (l repl : List MazeNode) (m : MazeNode),
      m ∈ replaceFlagged l repl → m ∈ l ∨ m ∈ repl := by
  intro l
  induction l with
  | nil => intro repl m hm; simp [replaceFlagged] at hm
  | cons n t ih =>
    intro repl m hm
    simp only [replaceFlagged] at hm
    split at hm
    · rcases List.mem_cons.mp hm with hm | hm
      · subst hm
        cases repl with
        | nil => exact Or.inl (List.mem_cons_self _ _)
        | cons r rs => exact Or.inr (List.mem_cons_self _ _)
      · rcases ih _ _ hm with h | h
        · exact Or.inl (List.mem_cons_of_mem _ h)
        · cases repl with
          | nil => simp only [List.tail_nil] at h; simp at h
          | cons r rs => exact Or.inr (List.mem_cons_of_mem _ h)
    · rcases List.mem_cons.mp hm with hm | hm
      · subst hm; exact Or.inl (List.mem_cons_self _ _)
      · rcases ih _ _ hm with h | h
        · exact Or.inl (List.mem_cons_of_mem _ h)
        · exact Or.inr h

theorem addWelcome_shape (l : List MazeNode) (t : String) : ShapeFrom (addWelcome l t) l := by
  intro m hm
  cases l with
  | nil => simp [addWelcome] at hm
  | cons e rest =>
    simp only [addWelcome] at hm
    rcases List.mem_cons.mp hm with hm | hm
    · subst hm
      exact ⟨e, List.mem_cons_self _ _, MazeNode.withFiles_children _ _,
        MazeNode.withFiles_depth _ _⟩
    · exact ⟨m, List.mem_cons_of_mem _ hm, rfl, rfl⟩

theorem addTreasureFile_shape :
    ∀ (l : List MazeNode) (f t : String), ShapeFrom (addTreasureFile l f t) l := by
  intro l
  induction l with
  | nil => intro f t m hm; simp [addTreasureFile] at hm
  | cons n rest ih =>
    intro f t m hm
    simp only [addTreasureFile] at hm
    split at hm
    · rcases List.mem_cons.mp hm with hm | hm
      · subst hm; exact ⟨m, List.mem_cons_self _ _, rfl, rfl⟩
      · obtain ⟨m0, hm0, e⟩ := ih f t m hm
        exact ⟨m0, List.mem_cons_of_mem _ hm0, e⟩
    · split at hm
      · rcases List.mem_cons.mp hm with hm | hm
        · subst hm
          exact ⟨n, List.mem_cons_self _ _, MazeNode.withFiles_children _ _,
            MazeNode.withFiles_depth _ _⟩
        · exact ⟨m, List.mem_cons_of_mem _ hm, rfl, rfl⟩
      · rcases List.mem_cons.mp hm with hm | hm
        · subst hm; exact ⟨m, List.mem_cons_self _ _, rfl, rfl⟩
        · obtain ⟨m0, hm0, e⟩ := ih f t m hm
          exact ⟨m0, List.mem_cons_of_mem _ hm0, e⟩

theorem decorateNode_shape (n : MazeNode) (g : ℕ → Draw) (k : ℕ) :
    (decorateNode n g k).1.children = n.children ∧
    (decorateNode n g k).1.depth = n.depth :=
  ⟨MazeNode.withFiles_children _ _, MazeNode.withFiles_depth _ _⟩

theorem addRedHerrings_shape :
    ∀ (l : List MazeNode) (g : ℕ → Draw) (k : ℕ), ShapeFrom (addRedHerrings l g k).1 l := by
  intro l
  induction l with
  | nil => intro g k m hm; simp [addRedHerrings] at hm
  | cons n rest ih =>
    intro g k m hm
    simp only [addRedHerrings] at hm
    split at hm
    · rcases List.mem_cons.mp hm with hm | hm
      · subst hm
        exact ⟨n, List.mem_cons_self _ _, decorateNode_shape n g k⟩
      · obtain ⟨m0, hm0, e⟩ := ih g _ m hm
        exact ⟨m0, List.mem_cons_of_mem _ hm0, e⟩
    · rcases List.mem_cons.mp hm with hm | hm
      · subst hm; exact ⟨m, List.mem_cons_self _ _, rfl, rfl⟩
      · obtain ⟨m0, hm0, e⟩ := ih g _ m hm
        exact ⟨m0, List.mem_cons_of_mem _ hm0, e⟩

theorem addPuzzles_shape {cfg : MazeConfig} {td : ThemeData} {l : List MazeNode}
    {g : ℕ → Draw} {k : ℕ} {l2 : List MazeNode} {k2 : ℕ}
    (h : addPuzzlesAndClues cfg td l g k = Except.ok (l2, k2)) : ShapeFrom l2 l := by
  simp only [addPuzzlesAndClues] at h
  split at h
  · exact absurd h (by simp)
  · simp only [Except.ok.injEq, Prod.mk.injEq] at h
    obtain ⟨rfl, rfl⟩ := h
    refine shapeFrom_trans (addTreasureFile_shape _ _ _)
      (shapeFrom_trans (addWelcome_shape _ _) ?_)
    intro m hm
    rcases replaceFlagged_mem _ _ _ hm with hmem | hmem
    · exact ⟨m, hmem, rfl, rfl⟩
    · obtain ⟨m0, hm0, e⟩ := clueLoop_shape cfg _ g k m hmem
      exact ⟨m0, List.mem_of_mem_filter hm0, e⟩

theorem generateMaze_nodes_ok {cfg : MazeConfig} {g : ℕ → Draw} {rf : ℕ}
    {res : GenResult} (h : generateMaze cfg g rf = Except.ok res) :
    ∀ m ∈ res.nodes, ∃ m0 : MazeNode,
      NodeOk cfg m0 ∧ m.children = m0.children ∧ m.depth = m0.depth := by
  simp only [generateMaze] at h
  split at h
  · exact absurd h (by simp)
  · next td htd =>
    split at h
    · exact absurd h (by simp)
    · next root nodes k2 hb =>
      split at h
      · exact absurd h (by simp)
      · next nodes1 k3 hp =>
        simp only [Except.ok.injEq] at h
        subst h
        intro m hm
        obtain ⟨m1, hm1, e1, e2⟩ := addRedHerrings_shape nodes1 g k3 m hm
        obtain ⟨m0, hm0, e3, e4⟩ := addPuzzles_shape hp m1 hm1
        have hok := (buildSubtree_ok _ _ _ _ _ _ _ _ _ _ hb (Nat.zero_le _)).2.2.2
        exact ⟨m0, hok m0 hm0, e1.trans e3, e2.trans e4⟩

/-- C3 amended. What holds of the source: recursion is bounded by
`config.depth` — whenever generation completes, every node of the maze has
depth at most `config.depth`, and a node at the bound has no children (the
builder stops there). Termination itself is *not* unconditional: see the
counterexample theorem for a valid configuration and draw sequence on which
the decoy-name retry loop never exits (and no `ConfigError` exists to stop
it). -/
theorem c3_depth_bound (cfg : MazeConfig) (g : ℕ → Draw) (rf : ℕ) (res : GenResult)
    (h : generateMaze cfg g rf = Except.ok res) :
    ∀ m ∈ res.nodes, m.depth ≤ cfg.depth ∧ (cfg.depth ≤ m.depth → m.children = []) := by
  intro m hm
  obtain ⟨m0, hok, ec, ed⟩ := generateMaze_nodes_ok h m hm
  rw [ed, ec]
  exact ⟨hok.2.2.2.1, hok.2.2.2.2⟩

/-- Witness for the amended C3 on a completed concrete run. -/
theorem c3_depth_bound_witness :
    generateMaze cfgA gq 9 = Except.ok resA ∧
    (resA.nodes.headD node0).depth ≤ cfgA.depth := by
  have hne : resA.nodes ≠ [] := fun he => by
    simpa [he] using (show resA.nodes.isEmpty = false from by decide)
  exact ⟨rfl, (c3_depth_bound cfgA gq 9 resA rfl _ (list_headD_mem node0 hne)).1⟩

/-- C10. In every completed generation, every node's children carry pairwise
distinct names: the treasure-path child is appended first and each decoy name
is re-drawn until it differs from all existing sibling names, so rendering
the tree maps sibling nodes to distinct directories. -/
theorem c10_sibling_names_distinct (cfg : MazeConfig) (g : ℕ → Draw) (rf : ℕ)
    (res : GenResult) (h : generateMaze cfg g rf = Except.ok res) :
    ∀ m ∈ res.nodes, (m.children.map MazeNode.name).Nodup := by
  intro m hm
  obtain ⟨m0, hok, ec, -⟩ := generateMaze_nodes_ok h m hm
  rw [ec]
  exact hok.1

/-- Witness for C10 on a completed concrete run. -/
theorem c10_sibling_names_distinct_witness :
    generateMaze cfgA gq 9 = Except.ok resA ∧
    (((resA.nodes.headD node0).children.map MazeNode.name).Nodup) := by
  have hne : resA.nodes ≠ [] := fun he => by
    simpa [he] using (show resA.nodes.isEmpty = false from by decide)
  exact ⟨rfl, c10_sibling_names_distinct cfgA gq 9 resA rfl _ (list_headD_mem node0 hne)⟩

theorem getD_range_map (n : ℕ) (f : ℕ → String) (i : ℕ) (h : i < n) (d : String) :
    ((List.range n).map f).getD i d = f i := by
  simp [List.getD_eq_getElem?_getD, List.getElem?_map, List.getElem?_range h]

theorem genTreasurePath_fst (cfg : MazeConfig) (td : ThemeData) (g : ℕ → Draw) (k : ℕ) :
    (genTreasurePath cfg td g k).1 = (List.range cfg.depth).map (fun i =>
      if i = 0 then "entrance"
      else if i = cfg.depth - 1 then
        pyLower (td.treasures.getD
          ((g (pyShuffle td.locations g k).2).asNat % td.treasures.length) "") ++ "_chamber"
      else (pyShuffle td.locations g k).1.getD
        (i % (pyShuffle td.locations g k).1.length) "") := rfl

/-- C5 amended. For every known theme and every configuration of depth at
least 2, the planned solution path has length `config.depth`, starts with
`"entrance"`, ends (at index `depth - 1`) with a drawn theme treasure name
lower-cased with `"_chamber"` appended, and every intermediate index `i`
holds the once-shuffled location list at `i mod len`; `get_solution_path`
returns exactly this path. (For depth 1 the `i = 0` rule wins and the path is
just `["entrance"]` — see the counterexample theorem.) -/
theorem c5_solution_path (cfg : MazeConfig) (td : ThemeData) (g : ℕ → Draw) (k : ℕ)
    (htd : themeData cfg.theme = some td) (h2 : 2 ≤ cfg.depth) :
    (genTreasurePath cfg td g k).1.length = cfg.depth ∧
    (genTreasurePath cfg td g k).1.getD 0 "" = "entrance" ∧
    (genTreasurePath cfg td g k).1.getD (cfg.depth - 1) "" =
      pyLower (td.treasures.getD
        ((g (pyShuffle td.locations g k).2).asNat % td.treasures.length) "") ++
        "_chamber" ∧
    (∀ i, 0 < i → i < cfg.depth - 1 →
      (genTreasurePath cfg td g k).1.getD i "" =
        (pyShuffle td.locations g k).1.getD
          (i % (pyShuffle td.locations g k).1.length) "") ∧
    (∀ (rf : ℕ) (res : GenResult), generateMaze cfg g rf = Except.ok res →
      getSolutionPath res = (genTreasurePath cfg td g 0).1) := by
  refine ⟨?_, ?_, ?_, ?_, ?_⟩
  · rw [genTreasurePath_fst]
    simp
  · rw [genTreasurePath_fst, getD_range_map _ _ _ (by omega)]
    simp
  · rw [genTreasurePath_fst, getD_range_map _ _ _ (by omega)]
    have h0 : ¬ (cfg.depth - 1 = 0) := by omega
    simp [h0]
  · intro i hi0 hi1
    rw [genTreasurePath_fst, getD_range_map _ _ _ (by omega)]
    have h0 : ¬ (i = 0) := by omega
    have h1 : ¬ (i = cfg.depth - 1) := by omega
    simp [h0, h1]
  · intro rf res h
    simp only [generateMaze, htd] at h
    split at h
    · exact absurd h (by simp)
    · split at h
      · exact absurd h (by simp)
      · simp only [Except.ok.injEq] at h
        subst h
        rfl

/-- Witness for the amended C5 at a concrete depth-3 fantasy configuration. -/
theorem c5_solution_path_witness :
    (genTreasurePath cfgA fantasyTheme gq 0).1.length = cfgA.depth ∧
    (genTreasurePath cfgA fantasyTheme gq 0).1.getD 0 "" = "entrance" :=
  ⟨(c5_solution_path cfgA fantasyTheme gq 0 rfl (by decide)).1,
   (c5_solution_path cfgA fantasyTheme gq 0 rfl (by decide)).2.1⟩

/-- C7. MATH clues: when the target name is nonempty and its first character
upper-cases into `A..Z` (the keys of the letter-value dictionary), the clue is
the doubled-then-halved equation for the letter's 1-indexed alphabet position
`v = toNat - 64` (with `v * 2 / 2 = v` and `1 ≤ v ≤ 26`); for `"Cavern"` the
stated result is 3; and for an empty name or a first character outside the
letter range, the clue falls back to `"Calculate the path to <NAME.upper()>"`.
Draws nothing from the random source. -/
theorem c7_math_clue :
    (∀ tn : String, tn ≠ "" → isUpperAlpha (pyFront tn).toUpper →
      generateMathClue tn =
        "Solve: " ++ toString (((pyFront tn).toUpper.toNat - 64) * 2) ++ " ÷ 2 = " ++
          toString ((pyFront tn).toUpper.toNat - 64) ++ " = " ++
          String.singleton (pyFront tn).toUpper ++
          ". First letter of your destination." ∧
        ((pyFront tn).toUpper.toNat - 64) * 2 / 2 = (pyFront tn).toUpper.toNat - 64 ∧
        1 ≤ (pyFront tn).toUpper.toNat - 64 ∧ (pyFront tn).toUpper.toNat - 64 ≤ 26) ∧
    generateMathClue "Cavern" = "Solve: 6 ÷ 2 = 3 = C. First letter of your destination." ∧
    (∀ tn : String, tn = "" ∨ ¬ isUpperAlpha (pyFront tn).toUpper →
      generateMathClue tn = "Calculate the path to " ++ pyUpper tn) := by
  refine ⟨?_, by decide, ?_⟩
  · intro tn hne halpha
    have hb : 65 ≤ (pyFront tn).toUpper.toNat ∧ (pyFront tn).toUpper.toNat ≤ 90 := by
      obtain ⟨h1, h2⟩ := halpha
      rw [Char.le_def] at h1 h2
      exact ⟨h1, h2⟩
    refine ⟨?_, by omega, by omega, by omega⟩
    unfold generateMathClue
    rw [if_pos ⟨hne, halpha⟩]
  · intro tn h
    unfold generateMathClue
    rw [if_neg]
    intro hcon
    rcases h with h | h
    · exact hcon.1 h
    · exact h hcon.2

/-- Witness for C7: a letter name produces the equation, the empty name the
fallback. -/
theorem c7_math_clue_witness :
    generateMathClue "forest" = "Solve: 12 ÷ 2 = 6 = F. First letter of your destination." ∧
    generateMathClue "" = "Calculate the path to " ++ pyUpper "" := by
  constructor
  · have h := (c7_math_clue.1 "forest" (by decide) (by decide)).1
    simpa using h
  · exact c7_math_clue.2.2 "" (Or.inl rfl)

theorem addRedHerrings_getD :
    ∀ (l : List MazeNode) (g : ℕ → Draw) (k : ℕ),
      ((addRedHerrings l g k).1.length = l.length) ∧
      (∀ j, (l.getD j node0).red_herring = false →
        (addRedHerrings l g k).1.getD j node0 = l.getD j node0) ∧
      (∀ j, j < l.length → (l.getD j node0).red_herring = true →
        ∃ kj, (addRedHerrings l g k).1.getD j node0 =
          (decorateNode (l.getD j node0) g kj).1) := by
  intro l
  induction l with
  | nil =>
    intro g k
    refine ⟨rfl, fun j _ => rfl, fun j hj _ => absurd hj (by simp)⟩
  | cons n t ih =>
    intro g k
    simp only [addRedHerrings]
    split
    · next hherring =>
      refine ⟨by simpa using (ih g _).1, ?_, ?_⟩
      · intro j hflag
        cases j with
        | zero =>
          rw [List.getD_cons_zero] at hflag
          rw [hherring] at hflag
          cases hflag
        | succ j =>
          simp only [List.getD_cons_succ]
          exact (ih g _).2.1 j (by simpa using hflag)
      · intro j hj hflag
        cases j with
        | zero => exact ⟨k, by simp⟩
        | succ j =>
          simp only [List.getD_cons_succ]
          exact (ih g _).2.2 j (by simpa using hj) (by simpa using hflag)
    · next hherring =>
      have hfalse : n.red_herring = false := by
        cases hn : n.red_herring
        · rfl
        · exact absurd hn hherring
      refine ⟨by simpa using (ih g k).1, ?_, ?_⟩
      · intro j hflag
        cases j with
        | zero => simp
        | succ j =>
          simp only [List.getD_cons_succ]
          exact (ih g k).2.1 j (by simpa using hflag)
      · intro j hj hflag
        cases j with
        | zero =>
          rw [List.getD_cons_zero] at hflag
          rw [hfalse] at hflag
          cases hflag
        | succ j =>
          simp only [List.getD_cons_succ]
          exact (ih g k).2.2 j (by simpa using hj) (by simpa using hflag)

theorem decorateNode_cases (n : MazeNode) (g : ℕ → Draw) (k : ℕ) :
    ((g k).asQ < mkRat 3 10 → (g (k + 2)).asQ < mkRat 1 2 →
      (decorateNode n g k).1 = n.withFiles (dictInsert
        (dictInsert n.files
          (fakeTreasures.getD ((g (k + 1)).asNat % fakeTreasures.length) "")
          fakeTreasureText)
        ("misleading_clue_" ++ toString (1 + (g (k + 3)).asNat % 9) ++ ".txt")
        (misleadingClues.getD ((g (k + 4)).asNat % misleadingClues.length) ""))) ∧
    ((g k).asQ < mkRat 3 10 → ¬ (g (k + 2)).asQ < mkRat 1 2 →
      (decorateNode n g k).1 = n.withFiles (dictInsert n.files
        (fakeTreasures.getD ((g (k + 1)).asNat % fakeTreasures.length) "")
        fakeTreasureText)) ∧
    (¬ (g k).asQ < mkRat 3 10 → (g (k + 1)).asQ < mkRat 1 2 →
      (decorateNode n g k).1 = n.withFiles (dictInsert n.files
        ("misleading_clue_" ++ toString (1 + (g (k + 2)).asNat % 9) ++ ".txt")
        (misleadingClues.getD ((g (k + 3)).asNat % misleadingClues.length) ""))) ∧
    (¬ (g k).asQ < mkRat 3 10 → ¬ (g (k + 1)).asQ < mkRat 1 2 →
      (decorateNode n g k).1 = n) := by
  refine ⟨?_, ?_, ?_, ?_⟩
  · intro h1 h2
    simp [decorateNode, h1, h2]
  · intro h1 h2
    simp [decorateNode, h1, h2]
  · intro h1 h2
    simp [decorateNode, h1, h2]
  · intro h1 h2
    simp [decorateNode, h1, h2, MazeNode.withFiles_self]

/-- C8. The red-herring pass decorates exactly the nodes flagged
`red_herring` (each by `decorateNode` at some stream position, every other
node returned unchanged), and each decoration is two independent draws: below
0.3 it attaches one file drawn from the four fixed fake-treasure names with
the fixed warning text, and below 0.5 it attaches
`misleading_clue_<n>.txt` with `n = 1 + draw mod 9 ∈ [1, 9]` and a phrase
drawn from the five fixed misleading phrases — so a red-herring node ends
with zero, one or both additions. -/
theorem c8_red_herring_pass :
    (∀ (l : List MazeNode) (g : ℕ → Draw) (k : ℕ),
      ((addRedHerrings l g k).1.length = l.length) ∧
      (∀ j, (l.getD j node0).red_herring = false →
        (addRedHerrings l g k).1.getD j node0 = l.getD j node0) ∧
      (∀ j, j < l.length → (l.getD j node0).red_herring = true →
        ∃ kj, (addRedHerrings l g k).1.getD j node0 =
          (decorateNode (l.getD j node0) g kj).1)) ∧
    (∀ (n : MazeNode) (g : ℕ → Draw) (k : ℕ),
      ((g k).asQ < mkRat 3 10 → (g (k + 2)).asQ < mkRat 1 2 →
        (decorateNode n g k).1 = n.withFiles (dictInsert
          (dictInsert n.files
            (fakeTreasures.getD ((g (k + 1)).asNat % fakeTreasures.length) "")
            fakeTreasureText)
          ("misleading_clue_" ++ toString (1 + (g (k + 3)).asNat % 9) ++ ".txt")
          (misleadingClues.getD ((g (k + 4)).asNat % misleadingClues.length) ""))) ∧
      ((g k).asQ < mkRat 3 10 → ¬ (g (k + 2)).asQ < mkRat 1 2 →
        (decorateNode n g k).1 = n.withFiles (dictInsert n.files
          (fakeTreasures.getD ((g (k + 1)).asNat % fakeTreasures.length) "")
          fakeTreasureText)) ∧
      (¬ (g k).asQ < mkRat 3 10 → (g (k + 1)).asQ < mkRat 1 2 →
        (decorateNode n g k).1 = n.withFiles (dictInsert n.files
          ("misleading_clue_" ++ toString (1 + (g (k + 2)).asNat % 9) ++ ".txt")
          (misleadingClues.getD ((g (k + 3)).asNat % misleadingClues.length) ""))) ∧
      (¬ (g k).asQ < mkRat 3 10 → ¬ (g (k + 1)).asQ < mkRat 1 2 →
        (decorateNode n g k).1 = n)) ∧
    fakeTreasures.length = 4 ∧ misleadingClues.length = 5 ∧
    (∀ x : ℕ, 1 ≤ 1 + x % 9 ∧ 1 + x % 9 ≤ 9) ∧
    (∀ y : ℕ, misleadingClues.getD (y % 5) "" ∈ misleadingClues ∧
      fakeTreasures.getD (y % 4) "" ∈ fakeTreasures) := by
  refine ⟨addRedHerrings_getD, decorateNode_cases, rfl, rfl, ?_, ?_⟩
  · intro x
    constructor
    · omega
    · have := Nat.mod_lt x (show 0 < 9 by omega)
      omega
  · intro y
    constructor
    · rcases (show y % 5 = 0 ∨ y % 5 = 1 ∨ y % 5 = 2 ∨ y % 5 = 3 ∨ y % 5 = 4 by omega)
        with h | h | h | h | h <;> rw [h] <;> decide
    · rcases (show y % 4 = 0 ∨ y % 4 = 1 ∨ y % 4 = 2 ∨ y % 4 = 3 by omega)
        with h | h | h | h <;> rw [h] <;> decide

/-- Witness for C8 at concrete draws taking both Bernoulli branches. -/
theorem c8_red_herring_pass_witness :
    (addRedHerrings [] gd 0).1.length = ([] : List MazeNode).length ∧
    (decorateNode node0 gd 0).1 = node0.withFiles (dictInsert
      (dictInsert node0.files "broken_relic.txt" fakeTreasureText)
      "misleading_clue_5.txt" "A dead end disguised as progress.") := by
  refine ⟨(c8_red_herring_pass.1 [] gd 0).1, ?_⟩
  rw [(c8_red_herring_pass.2.1 node0 gd 0).1 (by decide) (by decide)]
  rfl

theorem clueStep_cases (cfg : MazeConfig) (n t : MazeNode) (g : ℕ → Draw) (k : ℕ)
    (hfiles : n.files = []) :
    ((g k).asQ < cfg.puzzle_density →
      (clueStep cfg n t g k).1.files =
        [("clue_" ++ (chooseType cfg ((g (k + 1)).asNat)).value ++ ".txt",
          (generateClue (chooseType cfg ((g (k + 1)).asNat)) t g (k + 2)).1)] ∧
      (clueStep cfg n t g k).1.puzzle_type = some (chooseType cfg ((g (k + 1)).asNat)) ∧
      (clueStep cfg n t g k).1.name = n.name) ∧
    (¬ (g k).asQ < cfg.puzzle_density → (clueStep cfg n t g k).1 = n) := by
  constructor
  · intro h
    refine ⟨?_, ?_, ?_⟩
    · simp [clueStep, h, MazeNode.withFiles_files, hfiles, dictInsert]
    · simp [clueStep, h, MazeNode.withFiles_flag, MazeNode.withPuzzle_puzzle_type]
      cases n
      rfl
    · simp [clueStep, h, MazeNode.withFiles_name, MazeNode.withPuzzle_name]
  · intro h
    simp [clueStep, h]

theorem clueLoop_cons_cons (cfg : MazeConfig) (n nx : MazeNode) (r2 : List MazeNode)
    (g : ℕ → Draw) (k : ℕ) :
    clueLoop cfg (n :: nx :: r2) g k =
      ((clueStep cfg n nx g k).1 ::
        (clueLoop cfg (nx :: r2) g (clueStep cfg n nx g k).2).1,
       (clueLoop cfg (nx :: r2) g (clueStep cfg n nx g k).2).2) := rfl

theorem clueLoop_getD (cfg : MazeConfig) :
    ∀ (ft : List MazeNode) (g : ℕ → Draw) (k : ℕ),
      ((clueLoop cfg ft g k).1.length = ft.length) ∧
      (∀ i, i + 1 < ft.length → ∃ ki,
        (clueLoop cfg ft g k).1.getD i node0 =
          (clueStep cfg (ft.getD i node0) (ft.getD (i + 1) node0) g ki).1) ∧
      (∀ i, ft.length ≤ i + 1 →
        (clueLoop cfg ft g k).1.getD i node0 = ft.getD i node0) := by
  intro ft
  induction ft with
  | nil =>
    intro g k
    exact ⟨rfl, fun i h => absurd h (by simp), fun i _ => rfl⟩
  | cons n rest ih =>
    intro g k
    cases rest with
    | nil =>
      refine ⟨rfl, fun i h => absurd h (by simp), fun i _ => rfl⟩
    | cons nx r2 =>
      refine ⟨?_, ?_, ?_⟩
      · rw [clueLoop_cons_cons]
        simp only [List.length_cons]
        rw [(ih g _).1]
        simp
      · intro i hi
        cases i with
        | zero =>
          refine ⟨k, ?_⟩
          rw [clueLoop_cons_cons]
          simp
        | succ j =>
          obtain ⟨ki, he⟩ := (ih g (clueStep cfg n nx g k).2).2.1 j (by
            simp only [List.length_cons] at hi ⊢
            omega)
          refine ⟨ki, ?_⟩
          rw [clueLoop_cons_cons]
          simpa using he
      · intro i hi
        cases i with
        | zero =>
          simp only [List.length_cons] at hi
          omega
        | succ j =>
          have hj := (ih g (clueStep cfg n nx g k).2).2.2 j (by
            simp only [List.length_cons] at hi ⊢
            omega)
          rw [clueLoop_cons_cons]
          simpa using hj

theorem replaceFlagged_getD_unflagged :
    ∀ (l repl : List MazeNode) (j : ℕ),
      (l.getD j node0).is_treasure_path = false →
      (replaceFlagged l repl).getD j node0 = l.getD j node0 := by
  intro l
  induction l with
  | nil => intro repl j _; rfl
  | cons n t ih =>
    intro repl j hflag
    simp only [replaceFlagged]
    split
    · next hn =>
      cases j with
      | zero =>
        rw [List.getD_cons_zero] at hflag
        rw [hflag] at hn
        cases hn
      | succ j =>
        simp only [List.getD_cons_succ]
        exact ih _ j (by simpa using hflag)
    · cases j with
      | zero => simp
      | succ j =>
        simp only [List.getD_cons_succ]
        exact ih _ j (by simpa using hflag)

theorem addWelcome_getD_succ (l : List MazeNode) (t : String) (j : ℕ) (hj : 0 < j) :
    (addWelcome l t).getD j node0 = l.getD j node0 := by
  cases l with
  | nil => rfl
  | cons e rest =>
    cases j with
    | zero => omega
    | succ j => simp [addWelcome]

theorem addTreasureFile_getD_unflagged :
    ∀ (l : List MazeNode) (f t : String) (j : ℕ),
      (l.getD j node0).is_treasure_path = false →
      (addTreasureFile l f t).getD j node0 = l.getD j node0 := by
  intro l
  induction l with
  | nil => intro f t j _; rfl
  | cons n rest ih =>
    intro f t j hflag
    simp only [addTreasureFile]
    split
    · cases j with
      | zero => simp
      | succ j =>
        simp only [List.getD_cons_succ]
        exact ih f t j (by simpa using hflag)
    · split
      · next hn =>
        cases j with
        | zero =>
          rw [List.getD_cons_zero] at hflag
          rw [hflag] at hn
          cases hn
        | succ j => simp
      · cases j with
        | zero => simp
        | succ j =>
          simp only [List.getD_cons_succ]
          exact ih f t j (by simpa using hflag)

/-- C6 amended. The clue pass of `_add_puzzles_and_clues` works on the list
of `is_treasure_path` nodes in creation order (the entrance is not marked and
never enters it — see the counterexample theorem): every marked node except
the last, when its density draw is below `puzzle_density`, receives exactly
one clue file `clue_<puzzletype>.txt` whose content is generated from the
*next marked node in creation order* (for the consecutive genuine chain these
are the next path nodes) and has its `puzzle_type` recorded; on a draw at or
above the density it is left unchanged; the last marked node is untouched by
the loop; and every unmarked node other than `all_nodes[0]` leaves the whole
pass unchanged. -/
theorem c6_clue_pass :
    (∀ (cfg : MazeConfig) (ft : List MazeNode) (g : ℕ → Draw) (k : ℕ),
      ((clueLoop cfg ft g k).1.length = ft.length) ∧
      (∀ i, i + 1 < ft.length → (ft.getD i node0).files = [] → ∃ ki,
        (((g ki).asQ < cfg.puzzle_density →
          ((clueLoop cfg ft g k).1.getD i node0).files =
            [("clue_" ++ (chooseType cfg ((g (ki + 1)).asNat)).value ++ ".txt",
              (generateClue (chooseType cfg ((g (ki + 1)).asNat))
                (ft.getD (i + 1) node0) g (ki + 2)).1)] ∧
          ((clueLoop cfg ft g k).1.getD i node0).puzzle_type =
            some (chooseType cfg ((g (ki + 1)).asNat)) ∧
          ((clueLoop cfg ft g k).1.getD i node0).name = (ft.getD i node0).name) ∧
        (¬ (g ki).asQ < cfg.puzzle_density →
          (clueLoop cfg ft g k).1.getD i node0 = ft.getD i node0))) ∧
      (∀ i, ft.length ≤ i + 1 →
        (clueLoop cfg ft g k).1.getD i node0 = ft.getD i node0)) ∧
    (∀ (cfg : MazeConfig) (td : ThemeData) (l : List MazeNode) (g : ℕ → Draw) (k : ℕ)
      (l2 : List MazeNode) (k2 : ℕ),
      addPuzzlesAndClues cfg td l g k = Except.ok (l2, k2) →
      ∀ j, 0 < j → (l.getD j node0).is_treasure_path = false →
        l2.getD j node0 = l.getD j node0) := by
  constructor
  · intro cfg ft g k
    obtain ⟨hlen, hdx, hlast⟩ := clueLoop_getD cfg ft g k
    refine ⟨hlen, ?_, hlast⟩
    intro i hi hfiles
    obtain ⟨ki, he⟩ := hdx i hi
    refine ⟨ki, ?_, ?_⟩
    · intro hq
      rw [he]
      exact (clueStep_cases cfg _ _ g ki hfiles).1 hq
    · intro hq
      rw [he]
      exact (clueStep_cases cfg _ _ g ki hfiles).2 hq
  · intro cfg td l g k l2 k2 h j hj hflag
    simp only [addPuzzlesAndClues] at h
    split at h
    · exact absurd h (by simp)
    · simp only [Except.ok.injEq, Prod.mk.injEq] at h
      obtain ⟨rfl, rfl⟩ := h
      have h1 := replaceFlagged_getD_unflagged l
        (clueLoop cfg (l.filter (fun n => n.is_treasure_path)) g k).1 j hflag
      have h2 := addWelcome_getD_succ
        (replaceFlagged l (clueLoop cfg (l.filter (fun n => n.is_treasure_path)) g k).1)
        (td.treasures.getD
          (((g (clueLoop cfg (l.filter (fun n => n.is_treasure_path)) g k).2).asNat %
            td.treasures.length)) "") j hj
      rw [addTreasureFile_getD_unflagged _ _ _ j (by rw [h2, h1]; exact hflag), h2, h1]

/-- Witness for the amended C6: a two-node marked list with empty files, a
density-1 configuration and the constant stream give the first node exactly
one coordinate clue generated from the second. -/
theorem c6_clue_pass_witness :
    ((clueLoop cfgB [MazeNode.mk "a" "a" 1 true [] [] none "" false,
        MazeNode.mk "b" "a/b" 2 true [] [] none "" false] gq 0).1.length = 2) ∧
    (([MazeNode.mk "a" "a" 1 true [] [] none "" false,
        MazeNode.mk "b" "a/b" 2 true [] [] none "" false].getD 0 node0).files = []) := by
  refine ⟨?_, by decide⟩
  exact (c6_clue_pass.1 cfgB _ gq 0).1
